import Mathlib

/-!
Formal model of the Qblox pulse-schedule compiler backend of quantify-scheduler.

The definitions below are shallow embeddings of the Python source:

* the hardware-mapping traversal and port-clock indexer
  (`find_inner_dicts_containing_key`, `find_all_port_clock_combinations`,
  `generate_port_clock_to_device_map` in
  quantify/scheduler/backends/qblox_backend.py and
  quantify_scheduler/backends/qblox/helpers.py);
* the frequency resolver (`determine_clock_lo_interm_freqs` in
  quantify_scheduler/backends/qblox/helpers.py);
* the Q1ASM emitter (`QASMProgram.auto_wait`, `to_pulsar_time`,
  `_expand_from_normalised_range`, `wait_till_start_then_play`,
  `wait_till_start_then_acquire`, `generate_qasm_program` in
  quantify/scheduler/backends/qblox_backend.py);
* the per-pulse amplitude range check of
  `Pulsar_sequencer_base._generate_awg_dict` with the
  `AWG_OUTPUT_VOLT` constants of `QCM_sequencer` / `QRM_sequencer`;
* the pulse-distribution step of `assign_pulse_and_acq_info_to_devices`
  (quantify_scheduler/backends/qblox/helpers.py);
* the modulation-frequency extraction of `Pulsar_base._construct_sequencers`.

Python floats are modelled as rationals, Python ints as integers; functions
that raise exceptions are modelled in the `Except String` monad.
-/

/-- A JSON-like value of the hardware-mapping document: strings, numbers,
`null`, dictionaries (association lists with string keys, unique in any
actual document) and lists. -/
inductive CfgVal where
  | str : String → CfgVal
  | num : ℚ → CfgVal
  | null : CfgVal
  | dict : List (String × CfgVal) → CfgVal
  | list : List CfgVal → CfgVal

mutual

/-- Boolean equality on `CfgVal` (structural). -/
def cfgValBEq : CfgVal → CfgVal → Bool
  | .str a, .str b => a = b
  | .num a, .num b => a = b
  | .null, .null => true
  | .dict a, .dict b => cfgEntriesBEq a b
  | .list a, .list b => cfgItemsBEq a b
  | _, _ => false

/-- Boolean equality on dictionary entry lists. -/
def cfgEntriesBEq : List (String × CfgVal) → List (String × CfgVal) → Bool
  | [], [] => true
  | (k1, v1) :: r1, (k2, v2) :: r2 =>
    decide (k1 = k2) && cfgValBEq v1 v2 && cfgEntriesBEq r1 r2
  | _, _ => false

/-- Boolean equality on lists of values. -/
def cfgItemsBEq : List CfgVal → List CfgVal → Bool
  | [], [] => true
  | a :: r1, b :: r2 => cfgValBEq a b && cfgItemsBEq r1 r2
  | _, _ => false

end

mutual

theorem cfgValBEq_iff : ∀ a b : CfgVal, cfgValBEq a b = true ↔ a = b
  | .str a, .str b => by simp [cfgValBEq]
  | .str a, .num b => by simp [cfgValBEq]
  | .str a, .null => by simp [cfgValBEq]
  | .str a, .dict b => by simp [cfgValBEq]
  | .str a, .list b => by simp [cfgValBEq]
  | .num a, .str b => by simp [cfgValBEq]
  | .num a, .num b => by simp [cfgValBEq]
  | .num a, .null => by simp [cfgValBEq]
  | .num a, .dict b => by simp [cfgValBEq]
  | .num a, .list b => by simp [cfgValBEq]
  | .null, .str b => by simp [cfgValBEq]
  | .null, .num b => by simp [cfgValBEq]
  | .null, .null => by simp [cfgValBEq]
  | .null, .dict b => by simp [cfgValBEq]
  | .null, .list b => by simp [cfgValBEq]
  | .dict a, .str b => by simp [cfgValBEq]
  | .dict a, .num b => by simp [cfgValBEq]
  | .dict a, .null => by simp [cfgValBEq]
  | .dict a, .dict b => by simp [cfgValBEq, cfgEntriesBEq_iff a b]
  | .dict a, .list b => by simp [cfgValBEq]
  | .list a, .str b => by simp [cfgValBEq]
  | .list a, .num b => by simp [cfgValBEq]
  | .list a, .null => by simp [cfgValBEq]
  | .list a, .dict b => by simp [cfgValBEq]
  | .list a, .list b => by simp [cfgValBEq, cfgItemsBEq_iff a b]

theorem cfgEntriesBEq_iff :
    ∀ a b : List (String × CfgVal), cfgEntriesBEq a b = true ↔ a = b
  | [], [] => by simp [cfgEntriesBEq]
  | [], _ :: _ => by simp [cfgEntriesBEq]
  | _ :: _, [] => by simp [cfgEntriesBEq]
  | (k1, v1) :: r1, (k2, v2) :: r2 => by
    simp [cfgEntriesBEq, cfgValBEq_iff v1 v2, cfgEntriesBEq_iff r1 r2,
      and_assoc]

theorem cfgItemsBEq_iff :
    ∀ a b : List CfgVal, cfgItemsBEq a b = true ↔ a = b
  | [], [] => by simp [cfgItemsBEq]
  | [], _ :: _ => by simp [cfgItemsBEq]
  | _ :: _, [] => by simp [cfgItemsBEq]
  | a :: r1, b :: r2 => by
    simp [cfgItemsBEq, cfgValBEq_iff a b, cfgItemsBEq_iff r1 r2]

end

instance : DecidableEq CfgVal := fun a b =>
  decidable_of_iff (cfgValBEq a b = true) (cfgValBEq_iff a b)

/-- Python `key in d` for a dictionary node. -/
def hasKey (key : String) : List (String × CfgVal) → Bool
  | [] => false
  | (k, _) :: rest => if k = key then true else hasKey key rest

/-- Python `d[key]` as a partial lookup (first matching entry; keys of an
actual document are unique). -/
def lookupKey (es : List (String × CfgVal)) (key : String) : Option CfgVal :=
  match es with
  | [] => none
  | (k, v) :: rest => if k = key then some v else lookupKey rest key

mutual

/-- Embeds `find_inner_dicts_containing_key(d, key)` applied to a dictionary
node with entries `es`: the node itself is collected when it contains `key`,
then each value is traversed. -/
def findInnerDict (key : String) (es : List (String × CfgVal)) :
    List (List (String × CfgVal)) :=
  (if hasKey key es then [es] else []) ++ findInnerEntries key es
termination_by (sizeOf es, 1)

/-- The `for val in d.values()` loop of `find_inner_dicts_containing_key`:
dictionary values are recursed into, list values are iterated, any other
value is skipped. -/
def findInnerEntries (key : String) (es : List (String × CfgVal)) :
    List (List (String × CfgVal)) :=
  match es with
  | [] => []
  | (_, v) :: rest =>
    (match v with
     | .dict es2 => findInnerDict key es2
     | .list items => findInnerItems key items
     | _ => []) ++ findInnerEntries key rest
termination_by (sizeOf es, 0)

/-- The `for i_item in val` loop over a list value: dictionary items are
recursed into; any other item raises `AttributeError` inside the recursive
call, which the source catches and ignores. -/
def findInnerItems (key : String) (items : List CfgVal) :
    List (List (String × CfgVal)) :=
  match items with
  | [] => []
  | item :: rest =>
    (match item with
     | .dict es2 => findInnerDict key es2
     | _ => []) ++ findInnerItems key rest
termination_by (sizeOf items, 0)

end

/-- The collection loop of `find_all_port_clock_combinations`: for every inner
dictionary containing `"port"`, skip it when the port is `null`, raise
(`AttributeError`, the missing-clock error) when it has no `"clock"` key, and
otherwise record the `(port, clock)` pair. -/
def collectPortClocks :
    List (List (String × CfgVal)) → Except String (List (CfgVal × CfgVal))
  | [] => .ok []
  | es :: rest =>
    match lookupKey es "port" with
    | none => collectPortClocks rest
    | some .null => collectPortClocks rest
    | some port =>
      match lookupKey es "clock" with
      | none => .error "missing clock"
      | some clock => do
        let tail ← collectPortClocks rest
        .ok ((port, clock) :: tail)

/-- Embeds `find_all_port_clock_combinations(d)` for a dictionary `d`. -/
def findAllPortClockCombinations (d : List (String × CfgVal)) :
    Except String (List (CfgVal × CfgVal)) :=
  collectPortClocks (findInnerDict "port" d)

/-- Python dictionary assignment `m[k] = v`: replaces the value of an existing
key in place, otherwise appends a new entry. -/
def upsert (m : List ((CfgVal × CfgVal) × String)) (k : CfgVal × CfgVal)
    (v : String) : List ((CfgVal × CfgVal) × String) :=
  match m with
  | [] => [(k, v)]
  | (k0, v0) :: rest =>
    if k0 = k then (k0, v) :: rest else (k0, v0) :: upsert rest k v

/-- The inner loop of `generate_port_clock_to_device_map`:
`for portclock in portclocks: portclock_map[portclock] = device_name`. -/
def insertPortClocks (m : List ((CfgVal × CfgVal) × String))
    (pcs : List (CfgVal × CfgVal)) (deviceName : String) :
    List ((CfgVal × CfgVal) × String) :=
  pcs.foldl (fun acc pc => upsert acc pc deviceName) m

/-- The device loop of `generate_port_clock_to_device_map`: non-dictionary
top-level entries are skipped, every port-clock combination found under a
device is written into the map with the device name as value. -/
def portClockMapLoop (acc : List ((CfgVal × CfgVal) × String)) :
    List (String × CfgVal) →
    Except String (List ((CfgVal × CfgVal) × String))
  | [] => .ok acc
  | (deviceName, deviceInfo) :: rest =>
    match deviceInfo with
    | .dict es => do
      let pcs ← findAllPortClockCombinations es
      portClockMapLoop (insertPortClocks acc pcs deviceName) rest
    | _ => portClockMapLoop acc rest

/-- Embeds `generate_port_clock_to_device_map(mapping)`: the port-clock to
device index built from the hardware-mapping document. -/
def generatePortClockToDeviceMap (mapping : List (String × CfgVal)) :
    Except String (List ((CfgVal × CfgVal) × String)) :=
  portClockMapLoop [] mapping

/-- The modulation-frequency extraction of `Pulsar_base._construct_sequencers`:

    freq = None if "interm_freq" in portclock_dict else portclock_dict["interm_freq"]

When the key is present the conditional yields `None`; when it is absent, the
else branch evaluates `portclock_dict["interm_freq"]`, which raises
`KeyError`. -/
def constructSequencerFreq (portclockDict : List (String × CfgVal)) :
    Except String (Option CfgVal) :=
  if hasKey "interm_freq" portclockDict then .ok none
  else
    match lookupKey portclockDict "interm_freq" with
    | some v => .ok (some v)
    | none => .error "KeyError: interm_freq"

/-- The fields of `SequencerSettings` relevant here; `_construct_sequencers`
creates every sequencer with
`SequencerSettings(nco_en=False, sync_en=True, modulation_freq=freq)`. -/
structure SequencerSettings where
  nco_en : Bool
  sync_en : Bool
  modulation_freq : Option CfgVal
  deriving DecidableEq

/-- The construction of one sequencer compiler in
`Pulsar_base._construct_sequencers`, restricted to the settings it
initialises from the port-clock sub-config. -/
def constructSequencerSettings (portclockDict : List (String × CfgVal)) :
    Except String SequencerSettings := do
  let freq ← constructSequencerFreq portclockDict
  .ok ⟨false, true, freq⟩

/-- The `Frequencies` dataclass of
quantify_scheduler/backends/qblox/helpers.py. -/
structure Frequencies where
  clock : Option ℚ
  LO : Option ℚ
  IF : Option ℚ
  deriving DecidableEq

/-- The inner `_downconvert_clock` of `determine_clock_lo_interm_freqs`:
negative downconverter frequencies and downconverter frequencies below the
clock frequency raise `ValueError`; otherwise the result is
`downconverter_freq - clock_freq`.  (The warning for a zero downconverter
frequency is non-fatal and not modelled.) -/
def downconvertClock (downconverterFreq clockFreq : ℚ) : Except String ℚ :=
  if downconverterFreq < 0 then
    .error "Downconverter frequency must be positive"
  else if downconverterFreq < clockFreq then
    .error "Downconverter frequency must be greater than clock frequency"
  else .ok (downconverterFreq - clockFreq)

/-- Embeds `determine_clock_lo_interm_freqs(clock_freq, lo_freq, interm_freq,
downconverter_freq, mix_lo)`: the frequency resolver of the Qblox backend.
With `mix_lo` disabled the LO is set to the clock frequency and the IF
cleared; with `mix_lo` enabled, a declared IF overwrites the LO with
`clock - IF` and a declared LO overwrites the IF with `clock - LO`. -/
def determineClockLoIntermFreqs (clockFreq : ℚ) (loFreq intermFreq : Option ℚ)
    (downconverterFreq : Option ℚ) (mixLo : Bool) :
    Except String Frequencies := do
  let clk ← match downconverterFreq with
    | some d => downconvertClock d clockFreq
    | none => pure clockFreq
  if mixLo = false then
    .ok ⟨some clk, some clk, none⟩
  else
    let freqLO : Option ℚ := match intermFreq with
      | some f => some (clk - f)
      | none => loFreq
    let freqIF : Option ℚ := match loFreq with
      | some lo => some (clk - lo)
      | none => intermFreq
    .ok ⟨some clk, freqLO, freqIF⟩

/-- `Pulsar_sequencer_base.IMMEDIATE_SZ = pow(2, 16) - 1`: the largest value
of an immediate field. -/
def IMMEDIATE_SZ : ℤ := 2 ^ 16 - 1

/-- `Pulsar_sequencer_base.GRID_TIME_ns = 4`: the instruction grid time. -/
def GRID_TIME_ns : ℤ := 4

/-- Rounding half to even, the behaviour of Python `round` and `np.round`
on exact values. -/
def roundHalfEven (q : ℚ) : ℤ :=
  let n := ⌊q⌋
  let r := q - n
  if r < 1 / 2 then n
  else if 1 / 2 < r then n + 1
  else if n % 2 = 0 then n else n + 1

/-- Embeds `QASMProgram.to_pulsar_time`: seconds to integer nanoseconds,
raising `ValueError` when the result is not on the 4 ns grid. -/
def toPulsarTime (time : ℚ) : Except String ℤ :=
  let timeNs := roundHalfEven (time * 1000000000)
  if timeNs % GRID_TIME_ns ≠ 0 then .error "time not a multiple of grid time"
  else .ok timeNs

/-- Embeds `to_grid_time` of quantify_scheduler/backends/qblox/helpers.py,
which has the same body as `QASMProgram.to_pulsar_time`. -/
def toGridTime (time : ℚ) : Except String ℤ :=
  let timeNs := roundHalfEven (time * 1000000000)
  if timeNs % GRID_TIME_ns ≠ 0 then .error "time not a multiple of grid time"
  else .ok timeNs

/-- Embeds `QASMProgram._expand_from_normalised_range`: a normalised value is
rejected outside `[-1, 1]` and otherwise expanded with
`int(val * immediate_sz // 2)`, a floor after multiplying by `immediate_sz`
and dividing by two. -/
def expandFromNormalisedRange (val : ℚ) : Except String ℤ :=
  if 1 < |val| then
    .error "Parameter must be in the range -1.0 <= param <= 1.0"
  else .ok ⌊val * (IMMEDIATE_SZ : ℚ) / 2⌋

/-- One row of a Q1ASM program, restricted to the instructions the
emitter produces.  Labels are kept as rows of their own. -/
inductive Instr where
  | waitSync : ℤ → Instr
  | setMrk : ℤ → Instr
  | move : ℤ → String → Instr
  | label : String → Instr
  | wait : ℤ → Instr
  | setAwgGain : ℤ → ℤ → Instr
  | play : ℤ → ℤ → ℤ → Instr
  | acquire : ℤ → ℤ → ℤ → Instr
  | loop : String → String → Instr
  | updParam : ℤ → Instr
  | stop : Instr
  deriving DecidableEq

/-- The mutable state of a `QASMProgram`: the rows emitted so far and the
`elapsed_time` attribute (in nanoseconds). -/
structure QASMProg where
  instrs : List Instr
  elapsed_time : ℤ
  deriving DecidableEq

/-- Embeds `QASMProgram.auto_wait(wait_time)`: non-positive wait times raise
`ValueError`; a wait longer than `IMMEDIATE_SZ` is emitted as
`wait_time // IMMEDIATE_SZ` repetitions of `wait IMMEDIATE_SZ` with remainder
`wait_time % IMMEDIATE_SZ`, a shorter one as the single remainder
`wait_time`; the remainder is emitted only when positive; `elapsed_time`
grows by the full `wait_time`. -/
def autoWait (p : QASMProg) (waitTime : ℤ) : Except String QASMProg :=
  if waitTime ≤ 0 then .error "Invalid wait time"
  else
    let repInstrs : List Instr :=
      if IMMEDIATE_SZ < waitTime then
        List.replicate (waitTime / IMMEDIATE_SZ).toNat (Instr.wait IMMEDIATE_SZ)
      else []
    let timeLeft : ℤ :=
      if IMMEDIATE_SZ < waitTime then waitTime % IMMEDIATE_SZ else waitTime
    let lastInstr : List Instr :=
      if 0 < timeLeft then [Instr.wait timeLeft] else []
    .ok ⟨p.instrs ++ repInstrs ++ lastInstr, p.elapsed_time + waitTime⟩

/-- The information of an `OpInfo` record used by the emitter: the
deduplication hash `uuid`, the absolute `timing` in seconds, the
`is_acquisition` flag (derived in the source as `"acq_index" in self.data`)
and the optional `QASMRuntimeSettings` gains
`(awg_gain_0, awg_gain_1)`. -/
structure OpInfo where
  uuid : ℕ
  timing : ℚ
  isAcquisition : Bool
  pulseSettings : Option (ℚ × ℚ)

/-- Embeds `QASMProgram.wait_till_start_operation`: wait from the current
`elapsed_time` to the operation's start time, raising `ValueError` when the
operation starts in the past. -/
def waitTillStartOperation (p : QASMProg) (op : OpInfo) :
    Except String QASMProg := do
  let startTime ← toPulsarTime op.timing
  let waitTime := startTime - p.elapsed_time
  if 0 < waitTime then autoWait p waitTime
  else if waitTime < 0 then .error "Invalid timing"
  else .ok p

/-- Embeds `QASMProgram.update_runtime_settings`: missing runtime settings
raise; otherwise both gains are expanded from the normalised range and a
`set_awg_gain` row is emitted. -/
def updateRuntimeSettings (p : QASMProg) (op : OpInfo) :
    Except String QASMProg :=
  match op.pulseSettings with
  | none => .error "No real-time settings found"
  | some gains => do
    let gain0 ← expandFromNormalisedRange gains.1
    let gain1 ← expandFromNormalisedRange gains.2
    .ok ⟨p.instrs ++ [Instr.setAwgGain gain0 gain1], p.elapsed_time⟩

/-- Embeds `QASMProgram.wait_till_start_then_play`: wait, set the runtime
settings, emit `play idx0, idx1, GRID_TIME_ns` and advance `elapsed_time`
by the grid time. -/
def waitTillStartThenPlay (p : QASMProg) (op : OpInfo) (idx0 idx1 : ℤ) :
    Except String QASMProg := do
  let p1 ← waitTillStartOperation p op
  let p2 ← updateRuntimeSettings p1 op
  .ok ⟨p2.instrs ++ [Instr.play idx0 idx1 GRID_TIME_ns],
       p2.elapsed_time + GRID_TIME_ns⟩

/-- Embeds `QASMProgram.wait_till_start_then_acquire`: wait, emit
`acquire idx0, idx1, GRID_TIME_ns` and advance `elapsed_time` by the grid
time. -/
def waitTillStartThenAcquire (p : QASMProg) (op : OpInfo) (idx0 idx1 : ℤ) :
    Except String QASMProg := do
  let p1 ← waitTillStartOperation p op
  .ok ⟨p1.instrs ++ [Instr.acquire idx0 idx1 GRID_TIME_ns],
       p1.elapsed_time + GRID_TIME_ns⟩

/-- Embeds `Pulsar_sequencer_base.get_indices_from_wf_dict`, with the
waveform dictionary modelled as an association list from the uuid to the
pair of I and Q indices; a missing uuid raises `KeyError`. -/
def getIndicesFromWfDict (uuid : ℕ) (wfDict : List (ℕ × ℤ × ℤ)) :
    Except String (ℤ × ℤ) :=
  match wfDict with
  | [] => .error "KeyError: uuid not in wf_dict"
  | (u, idxs) :: rest =>
    if u = uuid then .ok idxs else getIndicesFromWfDict uuid rest

/-- One iteration of the operation queue loop in
`Pulsar_sequencer_base.generate_qasm_program`: acquisitions are looked up in
the acquisition dictionary and played with
`wait_till_start_then_acquire`, pulses in the awg dictionary with
`wait_till_start_then_play`. -/
def processOp (awgDict acqDict : List (ℕ × ℤ × ℤ)) (p : QASMProg)
    (op : OpInfo) : Except String QASMProg :=
  if op.isAcquisition then do
    let idxs ← getIndicesFromWfDict op.uuid acqDict
    waitTillStartThenAcquire p op idxs.1 idxs.2
  else do
    let idxs ← getIndicesFromWfDict op.uuid awgDict
    waitTillStartThenPlay p op idxs.1 idxs.2

/-- The operation queue loop of
`Pulsar_sequencer_base.generate_qasm_program`. -/
def emitOps (awgDict acqDict : List (ℕ × ℤ × ℤ)) (p : QASMProg) :
    List OpInfo → Except String QASMProg
  | [] => .ok p
  | op :: rest => do
    let p1 ← processOp awgDict acqDict p op
    emitOps awgDict acqDict p1 rest

/-- The sort key comparison
`sorted(op_list, key=lambda p: (p.timing, p.is_acquisition))`: Python tuples
compare lexicographically and `False < True`. -/
def opLeB (a b : OpInfo) : Bool :=
  decide (a.timing < b.timing ∨
    (a.timing = b.timing ∧ (a.isAcquisition = true → b.isAcquisition = true)))

/-- The body order of `generate_qasm_program`:
`op_list = pulses + acquisitions` sorted by `(timing, is_acquisition)`. -/
def sortedOps (pulses acquisitions : List OpInfo) : List OpInfo :=
  (pulses ++ acquisitions).mergeSort opLeB

/-- Embeds `Pulsar_sequencer_base.generate_qasm_program`: header
(`wait_sync`, `set_mrk 1`), repetition loop (`move`, label), the sorted
operation body, the final wait up to the total sequence time (raising when
no positive wait remains), and the footer (`loop`, `set_mrk 0`,
`upd_param`, `stop`). -/
def generateQasmProgram (totalSequenceTime : ℚ) (pulses : List OpInfo)
    (awgDict : List (ℕ × ℤ × ℤ)) (acquisitions : List OpInfo)
    (acqDict : List (ℕ × ℤ × ℤ)) (repetitions : ℤ) :
    Except String QASMProg := do
  let p0 : QASMProg :=
    ⟨[Instr.waitSync GRID_TIME_ns, Instr.setMrk 1,
      Instr.move repetitions "R0", Instr.label "start"], 0⟩
  let p1 ← emitOps awgDict acqDict p0 (sortedOps pulses acquisitions)
  let endTime ← toPulsarTime totalSequenceTime
  let waitTime := endTime - p1.elapsed_time
  if waitTime ≤ 0 then .error "Invalid timing detected"
  else do
    let p2 ← autoWait p1 waitTime
    .ok ⟨p2.instrs ++ [Instr.loop "R0" "@start", Instr.setMrk 0,
          Instr.updParam GRID_TIME_ns, Instr.stop], p2.elapsed_time⟩

/-- The `QASMRuntimeSettings` dataclass: the normalised AWG gains set
before playing a pulse. -/
structure QASMRuntimeSettings where
  awg_gain_0 : ℚ
  awg_gain_1 : ℚ
  deriving DecidableEq

/-- `QCM_sequencer.AWG_OUTPUT_VOLT = 5`. -/
def QCM_AWG_OUTPUT_VOLT : ℚ := 5

/-- `QRM_sequencer.AWG_OUTPUT_VOLT = 1`. -/
def QRM_AWG_OUTPUT_VOLT : ℚ := 1

/-- The per-pulse amplitude range check of
`Pulsar_sequencer_base._generate_awg_dict`: after
`normalize_waveform_data` returns the per-axis peak amplitudes `amp_i` and
`amp_q`, an amplitude whose absolute value exceeds `AWG_OUTPUT_VOLT` raises
`ValueError`, and otherwise the pulse's `QASMRuntimeSettings` gains are the
amplitudes normalised by `AWG_OUTPUT_VOLT`. -/
def generateAwgRuntimeSettings (awgOutputVolt : ℚ) (amp_i amp_q : ℚ) :
    Except String QASMRuntimeSettings :=
  if awgOutputVolt < |amp_i| then
    .error "Attempting to set amplitude to invalid value on I channel"
  else if awgOutputVolt < |amp_q| then
    .error "Attempting to set amplitude to invalid value on Q channel"
  else .ok ⟨amp_i / awgOutputVolt, amp_q / awgOutputVolt⟩

/-- The fields of one entry of `op_data.data["pulse_info"]` used by the
pulse-distribution loop of `assign_pulse_and_acq_info_to_devices`. -/
structure PulseRecord where
  port : Option String
  clock : String
  t0 : Option ℚ
  reference_magnitude : Option ℚ

/-- The start-time computation of the distribution loop:
`abs_time + t0` when the record carries a `t0`, plain `abs_time`
otherwise. -/
def pulseAbsStartTime (operationStartTime : ℚ) (pd : PulseRecord) : ℚ :=
  match pd.t0 with
  | some t0 => operationStartTime + t0
  | none => operationStartTime

/-- Python `portclock_mapping[(port, clock)]` over the association-list
model of the port-clock to device dictionary used by the distributor. -/
def lookupPortClock (m : List ((String × String) × String))
    (pc : String × String) : Option String :=
  match m with
  | [] => none
  | (k, v) :: rest => if k = pc then some v else lookupPortClock rest pc

/-- Embeds the per-pulse-record body of the distribution loop of
`assign_pulse_and_acq_info_to_devices`
(quantify_scheduler/backends/qblox/helpers.py): the start time is checked
against the grid, a present `reference_magnitude` raises
`NotImplementedError`, a record with `port = None` is fanned out to every
port-clock mapping entry with the same clock, and a record with a port is
routed to the owning device, raising `KeyError` when the `(port, clock)`
pair is not in the mapping.  The result lists the performed `add_pulse`
calls as `(device name, port, clock)` triples. -/
def assignPulseDataToDevices (portclockMapping : List ((String × String) × String))
    (operationStartTime : ℚ) (pd : PulseRecord) :
    Except String (List (String × String × String)) := do
  let _ ← toGridTime (pulseAbsStartTime operationStartTime pd)
  match pd.reference_magnitude with
  | some _ => .error "NotImplementedError"
  | none =>
    match pd.port with
    | none =>
      .ok (portclockMapping.filterMap (fun e =>
        if e.1.2 = pd.clock then some (e.2, e.1.1, pd.clock) else none))
    | some port =>
      match lookupPortClock portclockMapping (port, pd.clock) with
      | none => .error "KeyError: could not assign pulse data to device"
      | some deviceName => .ok [(deviceName, port, pd.clock)]

/-- The property asserted by the grid-alignment claim for a single emitted
row: every operand of a `wait`, `play` or `acquire` instruction is a
multiple of 4. -/
def waitPlayAcquireOperandsMultipleOf4 (i : Instr) : Bool :=
  match i with
  | .wait d => d % 4 == 0
  | .play idx0 idx1 d => (idx0 % 4 == 0) && (idx1 % 4 == 0) && (d % 4 == 0)
  | .acquire idx0 idx1 d => (idx0 % 4 == 0) && (idx1 % 4 == 0) && (d % 4 == 0)
  | _ => true

/-- The duration operand of every `play` and `acquire` row is the grid
time (used by the amended grid-alignment statement). -/
def playAcquireDurIsGrid (i : Instr) : Prop :=
  match i with
  | .play _ _ d => d = GRID_TIME_ns
  | .acquire _ _ d => d = GRID_TIME_ns
  | _ => True

/-- The port-clock sub-config dictionary used in concrete instances: seq0 of
a device driving port `q0:mw` with clock `q0.01`. -/
def seqDictQ0 : List (String × CfgVal) :=
  [("port", CfgVal.str "q0:mw"), ("clock", CfgVal.str "q0.01")]

/-- A device config whose output `complex_output_0` carries `seqDictQ0`
under sequencer slot `seq0`. -/
def deviceDictQ0 : List (String × CfgVal) :=
  [("complex_output_0", CfgVal.dict [("seq0", CfgVal.dict seqDictQ0)])]

/-- A hardware mapping in which the pair `(q0:mw, q0.01)` appears under two
distinct sequencer slots (seq0 of device `qcm0` and seq0 of device
`qcm1`). -/
def dupMapping : List (String × CfgVal) :=
  [("qcm0", CfgVal.dict deviceDictQ0), ("qcm1", CfgVal.dict deviceDictQ0)]

/-- A pulse `OpInfo` instance starting 66200 ns into the schedule with zero
runtime gains, used to exercise the emitter on a gap longer than the
largest immediate. -/
def opLongGap : OpInfo := ⟨1, 662 / 10000000, false, some (0, 0)⟩

/-- An awg waveform dictionary holding the I/Q indices 0 and 1 for the
uuid of `opLongGap`. -/
def awgDictLongGap : List (ℕ × ℤ × ℤ) := [(1, (0, 1))]

/-- A port-clock to device mapping with two sequencers on clock `q0.01`
and one on clock `q0.ro`. -/
def mappingFanOut : List ((String × String) × String) :=
  [(("q0:mw", "q0.01"), "qcm0"), (("q1:mw", "q0.01"), "qcm1"),
   (("q0:res", "q0.ro"), "qrm0")]

/-- A clock-only pulse record (`port = None`) on clock `q0.01`. -/
def pdClockOnly : PulseRecord := ⟨none, "q0.01", none, none⟩

@[simp] theorem exceptOkBind {α β : Type} (a : α) (f : α → Except String β) :
    (Except.ok a >>= f) = f a := rfl

@[simp] theorem exceptErrorBind {α β : Type} (e : String)
    (f : α → Except String β) :
    ((Except.error e : Except String α) >>= f) = .error e := rfl

theorem lookupKey_eq_none (es : List (String × CfgVal)) (key : String)
    (h : hasKey key es = false) : lookupKey es key = none := by
  induction es with
  | nil => rfl
  | cons e rest ih =>
    obtain ⟨k, v⟩ := e
    unfold hasKey at h
    unfold lookupKey
    by_cases hk : k = key
    · simp [hk] at h
    · rw [if_neg hk] at h
      rw [if_neg hk]
      exact ih h

theorem upsert_keys_subset (m : List ((CfgVal × CfgVal) × String))
    (k : CfgVal × CfgVal) (v : String) :
    ∀ x ∈ (upsert m k v).map Prod.fst, x ∈ m.map Prod.fst ∨ x = k := by
  induction m with
  | nil => simp [upsert]
  | cons e rest ih =>
    obtain ⟨k0, v0⟩ := e
    by_cases hk : k0 = k
    · simp only [upsert, if_pos hk]
      exact fun x hx => Or.inl hx
    · intro x hx
      simp only [upsert, if_neg hk, List.map_cons, List.mem_cons] at hx ⊢
      rcases hx with rfl | hx
      · exact Or.inl (Or.inl rfl)
      · rcases ih x hx with h | h
        · exact Or.inl (Or.inr h)
        · exact Or.inr h

theorem upsert_keys_nodup (m : List ((CfgVal × CfgVal) × String))
    (k : CfgVal × CfgVal) (v : String) (h : (m.map Prod.fst).Nodup) :
    ((upsert m k v).map Prod.fst).Nodup := by
  induction m with
  | nil => simp [upsert]
  | cons e rest ih =>
    obtain ⟨k0, v0⟩ := e
    simp only [List.map_cons, List.nodup_cons] at h
    by_cases hk : k0 = k
    · simp only [upsert, if_pos hk, List.map_cons, List.nodup_cons]
      exact ⟨h.1, h.2⟩
    · simp only [upsert, if_neg hk, List.map_cons, List.nodup_cons]
      refine ⟨?_, ih h.2⟩
      intro hmem
      rcases upsert_keys_subset rest k v k0 hmem with hh | hh
      · exact h.1 hh
      · exact hk hh

theorem insertPortClocks_keys_nodup (pcs : List (CfgVal × CfgVal))
    (m : List ((CfgVal × CfgVal) × String)) (dev : String)
    (h : (m.map Prod.fst).Nodup) :
    ((insertPortClocks m pcs dev).map Prod.fst).Nodup := by
  induction pcs generalizing m with
  | nil => exact h
  | cons pc rest ih =>
    have hstep : insertPortClocks m (pc :: rest) dev =
        insertPortClocks (upsert m pc dev) rest dev := rfl
    rw [hstep]
    exact ih _ (upsert_keys_nodup m pc dev h)

theorem portClockMapLoop_keys_nodup (mapping : List (String × CfgVal))
    (acc m : List ((CfgVal × CfgVal) × String))
    (hacc : (acc.map Prod.fst).Nodup)
    (h : portClockMapLoop acc mapping = .ok m) : (m.map Prod.fst).Nodup := by
  induction mapping generalizing acc with
  | nil =>
    unfold portClockMapLoop at h
    cases h
    exact hacc
  | cons e rest ih =>
    obtain ⟨name, info⟩ := e
    unfold portClockMapLoop at h
    cases info with
    | dict es =>
      dsimp only at h
      cases hpc : findAllPortClockCombinations es with
      | error msg => rw [hpc] at h; simp at h
      | ok pcs =>
        rw [hpc] at h
        simp only [exceptOkBind] at h
        exact ih _ (insertPortClocks_keys_nodup pcs acc name hacc) h
    | str s => exact ih acc hacc h
    | num q => exact ih acc hacc h
    | null => exact ih acc hacc h
    | list items => exact ih acc hacc h

/-- Claim C1 (amended): building the port-clock to device index never raises
on a duplicated `(port, clock)` pair; a pair appearing under several
sequencer slots is silently remapped, the device traversed last winning.  In
every index the builder returns, each `(port, clock)` key occurs exactly
once, so each accepted pair maps to exactly one device. -/
theorem portClockToDeviceMap_keys_unique (mapping : List (String × CfgVal))
    (m : List ((CfgVal × CfgVal) × String))
    (h : generatePortClockToDeviceMap mapping = .ok m) :
    (m.map Prod.fst).Nodup :=
  portClockMapLoop_keys_nodup mapping [] m (by simp) h

/-- Claim C1, counterexample to the claim as stated: in `dupMapping` the
pair `(q0:mw, q0.01)` appears under two distinct sequencer slots (seq0 of
`qcm0` and seq0 of `qcm1`), yet `generate_port_clock_to_device_map`
succeeds — no duplicate-portclock error is raised and an index (an
artifact) is produced, mapping the pair to the last device traversed. -/
theorem portClockToDeviceMap_duplicate_accepted :
    generatePortClockToDeviceMap dupMapping =
      .ok [((CfgVal.str "q0:mw", CfgVal.str "q0.01"), "qcm1")] ∧
    findAllPortClockCombinations deviceDictQ0 =
      .ok [(CfgVal.str "q0:mw", CfgVal.str "q0.01")] ∧
    dupMapping =
      [("qcm0", CfgVal.dict deviceDictQ0), ("qcm1", CfgVal.dict deviceDictQ0)] := by
  refine ⟨?_, ?_, rfl⟩
  · simp [generatePortClockToDeviceMap, portClockMapLoop, dupMapping,
      deviceDictQ0, seqDictQ0, findAllPortClockCombinations, findInnerDict,
      findInnerEntries, findInnerItems, hasKey, lookupKey, collectPortClocks,
      insertPortClocks, upsert]
  · simp [deviceDictQ0, seqDictQ0, findAllPortClockCombinations, findInnerDict,
      findInnerEntries, findInnerItems, hasKey, lookupKey, collectPortClocks]

/-- Claim C1, witness: the amended theorem applied to the concrete duplicate
mapping. -/
theorem portClockToDeviceMap_keys_unique_witness :
    (([((CfgVal.str "q0:mw", CfgVal.str "q0.01"), "qcm1")].map
      Prod.fst)).Nodup :=
  portClockToDeviceMap_keys_unique dupMapping _ (by
    simp [generatePortClockToDeviceMap, portClockMapLoop, dupMapping,
      deviceDictQ0, seqDictQ0, findAllPortClockCombinations, findInnerDict,
      findInnerEntries, findInnerItems, hasKey, lookupKey, collectPortClocks,
      insertPortClocks, upsert])

/-- Claim C10: in `Pulsar_base._construct_sequencers`, when the port-clock
sub-config contains the `interm_freq` key the sequencer settings are created
with `modulation_freq = None` regardless of the declared value, and when the
key is absent the construction raises `KeyError`. -/
theorem constructSequencerSettings_interm_freq (d : List (String × CfgVal)) :
    constructSequencerSettings d =
      if hasKey "interm_freq" d then .ok ⟨false, true, none⟩
      else .error "KeyError: interm_freq" := by
  unfold constructSequencerSettings constructSequencerFreq
  by_cases h : hasKey "interm_freq" d = true
  · simp [h]
  · have hb : hasKey "interm_freq" d = false := by
      simpa using h
    have hl : lookupKey d "interm_freq" = none := lookupKey_eq_none d _ hb
    simp [hb, hl]

/-- Claim C2: with mixing enabled and no downconversion, when only the
intermodulation frequency is declared the resolver computes the local
oscillator frequency as `clock - IF` (and keeps the declared IF), and when
only the LO frequency is declared it computes the modulation frequency as
`clock - LO` (and keeps the declared LO).  `_assign_frequencies` of the
legacy backend assigns exactly these values to the LO compiler and to the
owning sequencer respectively. -/
theorem determineFreqs_single_declared (clockFreq fIF fLO : ℚ) :
    determineClockLoIntermFreqs clockFreq none (some fIF) none true =
      .ok ⟨some clockFreq, some (clockFreq - fIF), some fIF⟩ ∧
    determineClockLoIntermFreqs clockFreq (some fLO) none none true =
      .ok ⟨some clockFreq, some fLO, some (clockFreq - fLO)⟩ :=
  ⟨rfl, rfl⟩

/-- Claim C3, counterexample to the claim as stated: with clock frequency 3,
declared LO 2 and declared IF 2 the relation `RF = LO + IF` is violated
(2 + 2 ≠ 3), yet the frequency resolver raises no over-constrained error: it
returns successfully, silently recomputing both frequencies. -/
theorem determineFreqs_overconstrained_no_error :
    determineClockLoIntermFreqs 3 (some 2) (some 2) none true =
      .ok ⟨some 3, some 1, some 1⟩ ∧ (2 : ℚ) + 2 ≠ 3 := by
  constructor
  · norm_num [determineClockLoIntermFreqs]
  · norm_num

/-- Claim C3 (amended): when both `lo_freq` and `interm_freq` are declared,
the resolver performs no consistency check and raises no error; it
overwrites both outputs, returning `LO = clock - declared IF` and
`IF = clock - declared LO`, whether or not `clock = LO + IF` held for the
declared pair. -/
theorem determineFreqs_both_declared (clockFreq fLO fIF : ℚ) :
    determineClockLoIntermFreqs clockFreq (some fLO) (some fIF) none true =
      .ok ⟨some clockFreq, some (clockFreq - fIF), some (clockFreq - fLO)⟩ :=
  rfl

/-- Claim C4: `auto_wait` on a positive wait time `W` emits exactly one
`wait W` when `W ≤ 65535`; otherwise it emits `W / 65535` repetitions of
`wait 65535` followed by a final `wait (W % 65535)` emitted only when the
remainder is non-zero; in both cases `elapsed_time` grows by exactly `W`. -/
theorem autoWait_wait_expansion (p : QASMProg) (W : ℤ) (hpos : 0 < W) :
    (W ≤ 65535 →
      autoWait p W = .ok ⟨p.instrs ++ [Instr.wait W], p.elapsed_time + W⟩) ∧
    (65535 < W →
      autoWait p W = .ok ⟨p.instrs ++
        (List.replicate (W / 65535).toNat (Instr.wait 65535) ++
          (if W % 65535 = 0 then [] else [Instr.wait (W % 65535)])),
        p.elapsed_time + W⟩) := by
  have hI : IMMEDIATE_SZ = 65535 := by norm_num [IMMEDIATE_SZ]
  constructor
  · intro hle
    rw [autoWait, if_neg (by omega)]
    have h1 : ¬ (65535 < W) := by omega
    simp only [hI]
    simp [h1, hpos]
  · intro hgt
    rw [autoWait, if_neg (by omega)]
    have hnonneg : 0 ≤ W % 65535 := Int.emod_nonneg W (by norm_num)
    simp only [hI]
    by_cases hz : W % 65535 = 0
    · have h2 : ¬ (0 < W % 65535) := by omega
      simp [hgt, h2, hz]
    · have h2 : 0 < W % 65535 := by omega
      simp [hgt, h2, hz]

/-- Claim C4, witness: a short wait of 3 ns emits a single `wait 3`; a long
wait of 140000 ns emits two `wait 65535` and a final `wait 8930`; in both
cases the elapsed time grows by the full wait. -/
theorem autoWait_wait_expansion_witness :
    autoWait ⟨[], 0⟩ 3 = .ok ⟨[Instr.wait 3], 3⟩ ∧
    autoWait ⟨[], 0⟩ 140000 =
      .ok ⟨[Instr.wait 65535, Instr.wait 65535, Instr.wait 8930], 140000⟩ := by
  constructor
  · have h := (autoWait_wait_expansion ⟨[], 0⟩ 3 (by norm_num)).1 (by norm_num)
    simpa using h
  · have h :=
      (autoWait_wait_expansion ⟨[], 0⟩ 140000 (by norm_num)).2 (by norm_num)
    norm_num [List.replicate] at h
    simpa using h

theorem opLeB_trans (a b c : OpInfo) (hab : opLeB a b = true)
    (hbc : opLeB b c = true) : opLeB a c = true := by
  simp only [opLeB, decide_eq_true_eq] at hab hbc ⊢
  rcases hab with h1 | ⟨h1, h2⟩
  · rcases hbc with h3 | ⟨h3, _⟩
    · exact Or.inl (h1.trans h3)
    · exact Or.inl (h3 ▸ h1)
  · rcases hbc with h3 | ⟨h3, h4⟩
    · exact Or.inl (h1 ▸ h3)
    · exact Or.inr ⟨h1.trans h3, fun h => h4 (h2 h)⟩

theorem opLeB_total (a b : OpInfo) : (opLeB a b || opLeB b a) = true := by
  simp only [opLeB, Bool.or_eq_true, decide_eq_true_eq]
  rcases lt_trichotomy a.timing b.timing with h | h | h
  · exact Or.inl (Or.inl h)
  · by_cases hb : b.isAcquisition = true
    · exact Or.inl (Or.inr ⟨h, fun _ => hb⟩)
    · exact Or.inr (Or.inr ⟨h.symm, fun hbb => absurd hbb hb⟩)
  · exact Or.inr (Or.inl h)

/-- Claim C5: the body order used by `generate_qasm_program` is a
permutation of the pulses and acquisitions handed to it, in non-decreasing
order of the key `(timing, is_acquisition)` — so a pulse at an instant is
never emitted after an acquisition at the same instant, i.e. acquisitions
break ties after pulses. -/
theorem sortedOps_emission_order (pulses acquisitions : List OpInfo) :
    (sortedOps pulses acquisitions).Perm (pulses ++ acquisitions) ∧
    List.Pairwise (fun a b => a.timing < b.timing ∨
      (a.timing = b.timing ∧ (a.isAcquisition = true → b.isAcquisition = true)))
      (sortedOps pulses acquisitions) := by
  constructor
  · exact List.mergeSort_perm (pulses ++ acquisitions) opLeB
  · have h := List.sorted_mergeSort opLeB_trans opLeB_total
      (pulses ++ acquisitions)
    have h2 : List.Pairwise (fun a b => opLeB a b = true)
        (sortedOps pulses acquisitions) := h
    exact h2.imp (fun hab => by
      unfold opLeB at hab
      exact of_decide_eq_true hab)

/-- Claim C6, counterexample to the claim as stated: a per-axis peak
amplitude of 2.6 V exceeds the 2.5 V peak output voltage the claim names
for a baseband QCM sequencer, yet the range check of
`_generate_awg_dict` accepts it, because `QCM_sequencer.AWG_OUTPUT_VOLT`
is 5 in the source. -/
theorem amplitudeRangeCheck_exceeds_claimed_voltage_accepted :
    generateAwgRuntimeSettings QCM_AWG_OUTPUT_VOLT (13 / 5) 0 =
      .ok ⟨13 / 25, 0⟩ ∧ (5 / 2 : ℚ) < 13 / 5 := by
  constructor
  · rw [generateAwgRuntimeSettings,
      if_neg (by
        rw [abs_of_nonneg (by norm_num : (0:ℚ) ≤ 13 / 5)]
        norm_num [QCM_AWG_OUTPUT_VOLT]),
      if_neg (by norm_num [QCM_AWG_OUTPUT_VOLT])]
    norm_num [QCM_AWG_OUTPUT_VOLT]
  · norm_num

/-- Claim C6 (amended): the range check of `_generate_awg_dict` raises
exactly when a per-axis peak amplitude exceeds the module's
`AWG_OUTPUT_VOLT` in absolute value, and that constant is 5 V for a QCM
sequencer and 1 V for a QRM sequencer (not 2.5 V and 0.5 V). -/
theorem amplitudeRangeCheck_thresholds (amp_i amp_q : ℚ) :
    ((generateAwgRuntimeSettings QCM_AWG_OUTPUT_VOLT amp_i amp_q).isOk = false ↔
      5 < |amp_i| ∨ 5 < |amp_q|) ∧
    ((generateAwgRuntimeSettings QRM_AWG_OUTPUT_VOLT amp_i amp_q).isOk = false ↔
      1 < |amp_i| ∨ 1 < |amp_q|) := by
  constructor
  · unfold generateAwgRuntimeSettings QCM_AWG_OUTPUT_VOLT
    split_ifs with h1 h2
    · simp [Except.isOk, Except.toBool, h1]
    · simp [Except.isOk, Except.toBool, h2]
    · simp [Except.isOk, Except.toBool, h1, h2]
  · unfold generateAwgRuntimeSettings QRM_AWG_OUTPUT_VOLT
    split_ifs with h1 h2
    · simp [Except.isOk, Except.toBool, h1]
    · simp [Except.isOk, Except.toBool, h2]
    · simp [Except.isOk, Except.toBool, h1, h2]

/-- Claim C7, counterexample to the claim as stated: for a normalised gain
of 1/2 the emitted immediate is `int(0.5 * 65535 // 2) = 16383`, not
`floor(0.5 * 32768) = 16384` as the claim's formula gives. -/
theorem expandFromNormalisedRange_not_32768 :
    expandFromNormalisedRange (1 / 2) = .ok 16383 ∧
    ⌊(1 / 2 : ℚ) * 32768⌋ ≠ (16383 : ℤ) := by
  constructor
  · rw [expandFromNormalisedRange,
      if_neg (by
        rw [abs_of_nonneg (by norm_num : (0:ℚ) ≤ 1 / 2)]
        norm_num)]
    norm_num [IMMEDIATE_SZ]
  · norm_num

/-- Claim C7 (amended): for `|a_x / V_max| ≤ 1` the immediate emitted before
the play is `⌊(a_x / V_max) * 65535 / 2⌋`, which always lies in the
signed-16-bit range `[-32768, 32767]` without any explicit clamping; for
`|a_x / V_max| > 1` the expansion raises, failing the compilation. -/
theorem expandFromNormalisedRange_immediate (val : ℚ) :
    (∀ r : ℤ, expandFromNormalisedRange val = .ok r →
      r = ⌊val * 65535 / 2⌋ ∧ -32768 ≤ r ∧ r ≤ 32767) ∧
    (1 < |val| → expandFromNormalisedRange val =
      .error "Parameter must be in the range -1.0 <= param <= 1.0") := by
  constructor
  · intro r h
    unfold expandFromNormalisedRange at h
    by_cases hv : 1 < |val|
    · simp [hv] at h
    · rw [if_neg hv] at h
      cases h
      push_neg at hv
      obtain ⟨hlo, hhi⟩ := abs_le.mp hv
      have hcast : ((IMMEDIATE_SZ : ℤ) : ℚ) = 65535 := by
        norm_num [IMMEDIATE_SZ]
      refine ⟨by rw [hcast], ?_, ?_⟩
      · refine Int.le_floor.mpr ?_
        rw [hcast]
        push_cast
        linarith
      · calc ⌊val * ((IMMEDIATE_SZ : ℤ) : ℚ) / 2⌋ ≤ ⌊(65535 : ℚ) / 2⌋ := by
              refine Int.floor_le_floor ?_
              rw [hcast]
              linarith
          _ = 32767 := by norm_num
  · intro hv
    unfold expandFromNormalisedRange
    rw [if_pos hv]

/-- Claim C7, witness: the amended theorem applied at the normalised gain
1/2, whose emitted immediate is 16383. -/
theorem expandFromNormalisedRange_immediate_witness :
    (16383 : ℤ) = ⌊(1 / 2 : ℚ) * 65535 / 2⌋ ∧
    -32768 ≤ (16383 : ℤ) ∧ (16383 : ℤ) ≤ 32767 :=
  (expandFromNormalisedRange_immediate (1 / 2)).1 16383 (by
    rw [expandFromNormalisedRange,
      if_neg (by
        rw [abs_of_nonneg (by norm_num : (0:ℚ) ≤ 1 / 2)]
        norm_num)]
    norm_num [IMMEDIATE_SZ])

theorem toPulsarTime_ok_mod (t : ℚ) (n : ℤ) (h : toPulsarTime t = .ok n) :
    n % 4 = 0 := by
  unfold toPulsarTime at h
  by_cases hc : roundHalfEven (t * 1000000000) % GRID_TIME_ns ≠ 0
  · simp [hc] at h
  · rw [if_neg (by simpa using hc)] at h
    cases h
    simpa [GRID_TIME_ns] using hc

theorem autoWait_ok (p q : QASMProg) (w : ℤ) (h : autoWait p w = .ok q) :
    q.elapsed_time = p.elapsed_time + w ∧
    ∀ i ∈ q.instrs, i ∈ p.instrs ∨ ∃ d, i = Instr.wait d := by
  unfold autoWait at h
  by_cases hw : w ≤ 0
  · simp [hw] at h
  · rw [if_neg hw] at h
    cases h
    refine ⟨rfl, ?_⟩
    intro i hi
    simp only [List.append_assoc, List.mem_append] at hi
    rcases hi with hi | hi | hi
    · exact Or.inl hi
    · split at hi
      · exact Or.inr ⟨IMMEDIATE_SZ, List.eq_of_mem_replicate hi⟩
      · simp at hi
    · split at hi <;> simp at hi <;> exact Or.inr ⟨_, hi.2⟩

theorem waitTillStartOperation_ok (p q : QASMProg) (op : OpInfo)
    (hp : p.elapsed_time % 4 = 0) (h : waitTillStartOperation p op = .ok q) :
    q.elapsed_time % 4 = 0 ∧
    ∀ i ∈ q.instrs, i ∈ p.instrs ∨ ∃ d, i = Instr.wait d := by
  unfold waitTillStartOperation at h
  cases hst : toPulsarTime op.timing with
  | error e => rw [hst] at h; simp at h
  | ok startTime =>
    rw [hst] at h
    simp only [exceptOkBind] at h
    have hmod : startTime % 4 = 0 := toPulsarTime_ok_mod _ _ hst
    split at h
    · have ha := autoWait_ok p q _ h
      refine ⟨?_, ha.2⟩
      rw [ha.1]
      omega
    · split at h
      · simp at h
      · cases h
        exact ⟨hp, fun i hi => Or.inl hi⟩

theorem updateRuntimeSettings_ok (p q : QASMProg) (op : OpInfo)
    (h : updateRuntimeSettings p op = .ok q) :
    q.elapsed_time = p.elapsed_time ∧
    ∀ i ∈ q.instrs, i ∈ p.instrs ∨ ∃ g0 g1, i = Instr.setAwgGain g0 g1 := by
  unfold updateRuntimeSettings at h
  cases hps : op.pulseSettings with
  | none => rw [hps] at h; simp at h
  | some gains =>
    rw [hps] at h
    dsimp only at h
    cases hg0 : expandFromNormalisedRange gains.1 with
    | error e => rw [hg0] at h; simp at h
    | ok g0 =>
      cases hg1 : expandFromNormalisedRange gains.2 with
      | error e => rw [hg0, hg1] at h; simp at h
      | ok g1 =>
        rw [hg0, hg1] at h
        simp only [exceptOkBind] at h
        cases h
        refine ⟨rfl, fun i hi => ?_⟩
        simp only [List.mem_append, List.mem_singleton] at hi
        rcases hi with hi | hi
        · exact Or.inl hi
        · exact Or.inr ⟨g0, g1, hi⟩

theorem processOp_ok (awgDict acqDict : List (ℕ × ℤ × ℤ)) (p q : QASMProg)
    (op : OpInfo) (hp : p.elapsed_time % 4 = 0)
    (hin : ∀ i ∈ p.instrs, playAcquireDurIsGrid i)
    (h : processOp awgDict acqDict p op = .ok q) :
    q.elapsed_time % 4 = 0 ∧ ∀ i ∈ q.instrs, playAcquireDurIsGrid i := by
  unfold processOp at h
  split at h
  · cases hidx : getIndicesFromWfDict op.uuid acqDict with
    | error e => rw [hidx] at h; simp at h
    | ok idxs =>
      rw [hidx] at h
      simp only [exceptOkBind] at h
      unfold waitTillStartThenAcquire at h
      cases hw : waitTillStartOperation p op with
      | error e => rw [hw] at h; simp at h
      | ok p1 =>
        rw [hw] at h
        simp only [exceptOkBind] at h
        cases h
        have h1 := waitTillStartOperation_ok p p1 op hp hw
        constructor
        · have hG : GRID_TIME_ns = 4 := rfl
          simp only [hG]
          have := h1.1
          omega
        · intro i hi
          simp only [List.mem_append, List.mem_singleton] at hi
          rcases hi with hi | hi
          · rcases h1.2 i hi with hh | ⟨d, rfl⟩
            · exact hin i hh
            · trivial
          · subst hi; rfl
  · cases hidx : getIndicesFromWfDict op.uuid awgDict with
    | error e => rw [hidx] at h; simp at h
    | ok idxs =>
      rw [hidx] at h
      simp only [exceptOkBind] at h
      unfold waitTillStartThenPlay at h
      cases hw : waitTillStartOperation p op with
      | error e => rw [hw] at h; simp at h
      | ok p1 =>
        rw [hw] at h
        simp only [exceptOkBind] at h
        cases hu : updateRuntimeSettings p1 op with
        | error e => rw [hu] at h; simp at h
        | ok p2 =>
          rw [hu] at h
          simp only [exceptOkBind] at h
          cases h
          have h1 := waitTillStartOperation_ok p p1 op hp hw
          have h2 := updateRuntimeSettings_ok p1 p2 op hu
          constructor
          · have hG : GRID_TIME_ns = 4 := rfl
            simp only [hG]
            have := h1.1
            rw [h2.1]
            omega
          · intro i hi
            simp only [List.mem_append, List.mem_singleton] at hi
            rcases hi with hi | hi
            · rcases h2.2 i hi with hh | ⟨g0, g1, rfl⟩
              · rcases h1.2 i hh with hhh | ⟨d, rfl⟩
                · exact hin i hhh
                · trivial
              · trivial
            · subst hi; rfl

/-- Claim C8 (amended): during body emission, every value taken by the
elapsed-time counter is a multiple of 4 (each intermediate state is the run
over a prefix of the operation list, and by this theorem its counter is a
multiple of 4 whenever the starting counter is), and every emitted `play`
and `acquire` instruction carries the 4 ns grid time as its duration
operand.  The claim's stronger statement — that every operand of every
`wait`, `play` or `acquire` is a multiple of 4 — is refuted by the
counterexample: a long gap emits `wait 65535`, and the waveform-index
operands of `play` need not be multiples of 4 either. -/
theorem emitOps_elapsed_grid_aligned (awgDict acqDict : List (ℕ × ℤ × ℤ))
    (ops : List OpInfo) (p q : QASMProg) (hp : p.elapsed_time % 4 = 0)
    (hin : ∀ i ∈ p.instrs, playAcquireDurIsGrid i)
    (h : emitOps awgDict acqDict p ops = .ok q) :
    q.elapsed_time % 4 = 0 ∧ ∀ i ∈ q.instrs, playAcquireDurIsGrid i := by
  induction ops generalizing p with
  | nil =>
    unfold emitOps at h
    cases h
    exact ⟨hp, hin⟩
  | cons op rest ih =>
    unfold emitOps at h
    cases hpr : processOp awgDict acqDict p op with
    | error e => rw [hpr] at h; simp at h
    | ok p1 =>
      rw [hpr] at h
      simp only [exceptOkBind] at h
      have h1 := processOp_ok awgDict acqDict p p1 op hp hin hpr
      exact ih p1 h1.1 h1.2 h

theorem sortedOps_single (op : OpInfo) : sortedOps [op] [] = [op] := by
  have h := List.mergeSort_perm ([op] ++ []) opLeB
  simp only [List.append_nil] at h
  exact List.perm_singleton.mp h

/-- Claim C8, witness: the amended theorem applied to a concrete body run —
one pulse 66200 ns into the schedule — whose final counter 66204 is a
multiple of 4 and whose emitted rows all carry the grid time on `play`. -/
theorem emitOps_elapsed_grid_aligned_witness :
    (66204 : ℤ) % 4 = 0 ∧
    ∀ i ∈ [Instr.wait 65535, Instr.wait 665, Instr.setAwgGain 0 0,
      Instr.play 0 1 4], playAcquireDurIsGrid i :=
  emitOps_elapsed_grid_aligned awgDictLongGap [] [opLongGap] ⟨[], 0⟩
    ⟨[Instr.wait 65535, Instr.wait 665, Instr.setAwgGain 0 0,
      Instr.play 0 1 4], 66204⟩
    (by norm_num) (by simp)
    (by norm_num [emitOps, processOp, opLongGap, awgDictLongGap,
      getIndicesFromWfDict, waitTillStartThenPlay, waitTillStartOperation,
      toPulsarTime, roundHalfEven, GRID_TIME_ns, updateRuntimeSettings,
      expandFromNormalisedRange, IMMEDIATE_SZ, autoWait, List.replicate])

/-- Claim C8, counterexample to the claim as stated: the program emitted for
a single pulse 66200 ns into a 66300 ns sequence contains the row
`wait 65535` (and a `play` with waveform-index operand 1), so not every
operand of a `wait`, `play` or `acquire` instruction is a multiple of 4. -/
theorem qasmProgram_wait_operand_not_grid_aligned :
    generateQasmProgram (663 / 10000000) [opLongGap] awgDictLongGap [] [] 1 =
      .ok ⟨[Instr.waitSync 4, Instr.setMrk 1, Instr.move 1 "R0",
        Instr.label "start", Instr.wait 65535, Instr.wait 665,
        Instr.setAwgGain 0 0, Instr.play 0 1 4, Instr.wait 96,
        Instr.loop "R0" "@start", Instr.setMrk 0, Instr.updParam 4,
        Instr.stop], 66300⟩ ∧
    waitPlayAcquireOperandsMultipleOf4 (Instr.wait 65535) = false ∧
    waitPlayAcquireOperandsMultipleOf4 (Instr.play 0 1 4) = false := by
  refine ⟨?_, by decide, by decide⟩
  norm_num [generateQasmProgram, sortedOps_single, emitOps, processOp,
    opLongGap, awgDictLongGap, getIndicesFromWfDict, waitTillStartThenPlay,
    waitTillStartOperation, toPulsarTime, roundHalfEven, GRID_TIME_ns,
    updateRuntimeSettings, expandFromNormalisedRange, IMMEDIATE_SZ, autoWait,
    List.replicate]

/-- Claim C9: a pulse record whose port is `None` is fanned out by the
distributor to every port-clock mapping entry whose clock equals the
record's clock — one `add_pulse` per matching entry, none dropped. -/
theorem assignPulseDataToDevices_fan_out
    (mapping : List ((String × String) × String)) (tStart : ℚ)
    (pd : PulseRecord) (n : ℤ) (hport : pd.port = none)
    (href : pd.reference_magnitude = none)
    (hgrid : toGridTime (pulseAbsStartTime tStart pd) = .ok n) :
    assignPulseDataToDevices mapping tStart pd =
      .ok (mapping.filterMap (fun e =>
        if e.1.2 = pd.clock then some (e.2, e.1.1, pd.clock) else none)) ∧
    ∀ e ∈ mapping, e.1.2 = pd.clock →
      (e.2, e.1.1, pd.clock) ∈ mapping.filterMap (fun e =>
        if e.1.2 = pd.clock then some (e.2, e.1.1, pd.clock) else none) := by
  constructor
  · unfold assignPulseDataToDevices
    rw [hgrid]
    simp only [exceptOkBind]
    rw [href]
    dsimp only
    rw [hport]
  · intro e he hclk
    exact List.mem_filterMap.mpr ⟨e, he, by simp [hclk]⟩

/-- Claim C9, witness: the fan-out theorem applied to a mapping with two
sequencers on clock `q0.01` and one on `q0.ro`, and a clock-only record on
`q0.01`: both matching sequencers receive the pulse. -/
theorem assignPulseDataToDevices_fan_out_witness :
    assignPulseDataToDevices mappingFanOut (4 / 1000000000) pdClockOnly =
      .ok [("qcm0", "q0:mw", "q0.01"), ("qcm1", "q1:mw", "q0.01")] := by
  have h := (assignPulseDataToDevices_fan_out mappingFanOut (4 / 1000000000)
    pdClockOnly 4 rfl rfl (by
      norm_num [toGridTime, roundHalfEven, GRID_TIME_ns, pulseAbsStartTime,
        pdClockOnly])).1
  rw [h]
  simp [mappingFanOut, pdClockOnly]
